import Mathlib

/-!
Shallow embedding of pyspark/sql/connect/conversion.py:
the two conversion engines `LocalDataToArrowConversion` (row-oriented local
values to Arrow columnar data) and `ArrowTableToRowsConversion` (Arrow
columnar data back to row records), together with the dynamic value
universe of the Python values they handle.
-/

/-- Schema field descriptors (pyspark.sql.types.DataType), restricted to the
kinds the conversion module dispatches on.  `integerType`, `doubleType` and
`booleanType` stand for the atomic types that need no conversion in either
direction (the final `else` branches of `_need_converter`). -/
inductive DataType where
  | nullType
  | booleanType
  | integerType
  | doubleType
  | stringType
  | binaryType
  | timestampType
  | timestampNTZType
  | decimalType
  | arrayType (elementType : DataType)
  | mapType (keyType : DataType) (valueType : DataType)
  | structType (fields : List (String × DataType))
  deriving Repr

/-- Whether a descriptor is a StructType. -/
def DataType.isStruct : DataType → Bool
  | .structType _ => true
  | _ => false

/-- Model of datetime.datetime: a wall-clock instant `naive` (minutes) plus
an optional fixed-offset timezone `tz` (offset from UTC in minutes;
`some 0` is datetime.timezone.utc, `none` is a naive datetime). -/
structure Datetime where
  naive : Int
  tz : Option Int
  deriving DecidableEq, Repr

/-- Model of decimal.Decimal: a NaN flag plus a rational payload. -/
structure PyDecimal where
  nan : Bool
  val : Rat
  deriving DecidableEq, Repr

/-- The dynamic universe of Python values flowing through the converters.
Python dicts are insertion-ordered association lists; `row fields values`
models a pyspark Row that carries `__fields__`; plain tuples are `tuple`.
A Python float is modelled by a rational payload (no float arithmetic is
performed anywhere in the conversion module). -/
inductive Value where
  | none
  | bool (b : Bool)
  | int (n : Int)
  | float (q : Rat)
  | str (s : String)
  | bytes (b : List Nat)
  | bytearray (b : List Nat)
  | decimal (d : PyDecimal)
  | date (ordinal : Int)
  | datetime (t : Datetime)
  | timedelta (m : Int)
  | list (xs : List Value)
  | tuple (xs : List Value)
  | dict (entries : List (Value × Value))
  | row (fields : List String) (values : List Value)
  deriving Repr

mutual

/-- Structural equality on values, modelling Python object equality as the
conversion module relies on it (dict key comparison).  Python cross-type
numeric equality (1 == True) is outside the model. -/
def Value.beq : Value → Value → Bool
  | .none, .none => true
  | .bool a, .bool b => a == b
  | .int a, .int b => a == b
  | .float a, .float b => a == b
  | .str a, .str b => a == b
  | .bytes a, .bytes b => a == b
  | .bytearray a, .bytearray b => a == b
  | .decimal a, .decimal b => a == b
  | .date a, .date b => a == b
  | .datetime a, .datetime b => a == b
  | .timedelta a, .timedelta b => a == b
  | .list xs, .list ys => Value.beqList xs ys
  | .tuple xs, .tuple ys => Value.beqList xs ys
  | .dict xs, .dict ys => Value.beqPairs xs ys
  | .row fs vs, .row gs ws => fs == gs && Value.beqList vs ws
  | _, _ => false

/-- Elementwise `Value.beq` on lists. -/
def Value.beqList : List Value → List Value → Bool
  | [], [] => true
  | x :: xs, y :: ys => Value.beq x y && Value.beqList xs ys
  | _, _ => false

/-- Componentwise `Value.beq` on pair lists. -/
def Value.beqPairs : List (Value × Value) → List (Value × Value) → Bool
  | [], [] => true
  | (k1, v1) :: xs, (k2, v2) :: ys =>
      Value.beq k1 k2 && Value.beq v1 v2 && Value.beqPairs xs ys
  | _, _ => false

end

mutual

/-- `Value.beq` decides propositional equality. -/
def Value.beq_iff : (a b : Value) → (Value.beq a b = true ↔ a = b)
  | .none, b => by
      cases b
      case none => exact iff_of_true rfl rfl
      all_goals exact iff_of_false (fun h => Bool.noConfusion h) (fun h => Value.noConfusion h)
  | .bool a, b => by
      cases b
      case bool x =>
        rw [show Value.beq (Value.bool a) (Value.bool x) = (a == x) from rfl, beq_iff_eq]
        simp
      all_goals exact iff_of_false (fun h => Bool.noConfusion h) (fun h => Value.noConfusion h)
  | .int a, b => by
      cases b
      case int x =>
        rw [show Value.beq (Value.int a) (Value.int x) = (a == x) from rfl, beq_iff_eq]
        simp
      all_goals exact iff_of_false (fun h => Bool.noConfusion h) (fun h => Value.noConfusion h)
  | .float a, b => by
      cases b
      case float x =>
        rw [show Value.beq (Value.float a) (Value.float x) = (a == x) from rfl, beq_iff_eq]
        simp
      all_goals exact iff_of_false (fun h => Bool.noConfusion h) (fun h => Value.noConfusion h)
  | .str a, b => by
      cases b
      case str x =>
        rw [show Value.beq (Value.str a) (Value.str x) = (a == x) from rfl, beq_iff_eq]
        simp
      all_goals exact iff_of_false (fun h => Bool.noConfusion h) (fun h => Value.noConfusion h)
  | .bytes a, b => by
      cases b
      case bytes x =>
        rw [show Value.beq (Value.bytes a) (Value.bytes x) = (a == x) from rfl, beq_iff_eq]
        simp
      all_goals exact iff_of_false (fun h => Bool.noConfusion h) (fun h => Value.noConfusion h)
  | .bytearray a, b => by
      cases b
      case bytearray x =>
        rw [show Value.beq (Value.bytearray a) (Value.bytearray x) = (a == x) from rfl, beq_iff_eq]
        simp
      all_goals exact iff_of_false (fun h => Bool.noConfusion h) (fun h => Value.noConfusion h)
  | .decimal a, b => by
      cases b
      case decimal x =>
        rw [show Value.beq (Value.decimal a) (Value.decimal x) = (a == x) from rfl, beq_iff_eq]
        simp
      all_goals exact iff_of_false (fun h => Bool.noConfusion h) (fun h => Value.noConfusion h)
  | .date a, b => by
      cases b
      case date x =>
        rw [show Value.beq (Value.date a) (Value.date x) = (a == x) from rfl, beq_iff_eq]
        simp
      all_goals exact iff_of_false (fun h => Bool.noConfusion h) (fun h => Value.noConfusion h)
  | .datetime a, b => by
      cases b
      case datetime x =>
        rw [show Value.beq (Value.datetime a) (Value.datetime x) = (a == x) from rfl, beq_iff_eq]
        simp
      all_goals exact iff_of_false (fun h => Bool.noConfusion h) (fun h => Value.noConfusion h)
  | .timedelta a, b => by
      cases b
      case timedelta x =>
        rw [show Value.beq (Value.timedelta a) (Value.timedelta x) = (a == x) from rfl, beq_iff_eq]
        simp
      all_goals exact iff_of_false (fun h => Bool.noConfusion h) (fun h => Value.noConfusion h)
  | .list xs, b => by
      cases b
      case list ys =>
        rw [show Value.beq (Value.list xs) (Value.list ys) = Value.beqList xs ys from rfl,
          Value.beqList_iff]
        simp
      all_goals exact iff_of_false (fun h => Bool.noConfusion h) (fun h => Value.noConfusion h)
  | .tuple xs, b => by
      cases b
      case tuple ys =>
        rw [show Value.beq (Value.tuple xs) (Value.tuple ys) = Value.beqList xs ys from rfl,
          Value.beqList_iff]
        simp
      all_goals exact iff_of_false (fun h => Bool.noConfusion h) (fun h => Value.noConfusion h)
  | .dict xs, b => by
      cases b
      case dict ys =>
        rw [show Value.beq (Value.dict xs) (Value.dict ys) = Value.beqPairs xs ys from rfl,
          Value.beqPairs_iff]
        simp
      all_goals exact iff_of_false (fun h => Bool.noConfusion h) (fun h => Value.noConfusion h)
  | .row fs vs, b => by
      cases b
      case row gs ws =>
        rw [show Value.beq (Value.row fs vs) (Value.row gs ws)
            = (fs == gs && Value.beqList vs ws) from rfl]
        rw [Bool.and_eq_true, Value.beqList_iff, beq_iff_eq]
        simp
      all_goals exact iff_of_false (fun h => Bool.noConfusion h) (fun h => Value.noConfusion h)

/-- `Value.beqList` decides propositional equality. -/
def Value.beqList_iff : (xs ys : List Value) → (Value.beqList xs ys = true ↔ xs = ys)
  | [], [] => by simp [Value.beqList]
  | [], _ :: _ => by simp [Value.beqList]
  | _ :: _, [] => by simp [Value.beqList]
  | x :: xs, y :: ys => by
      rw [show Value.beqList (x :: xs) (y :: ys) = (Value.beq x y && Value.beqList xs ys) from rfl]
      rw [Bool.and_eq_true, Value.beq_iff, Value.beqList_iff]
      simp

/-- `Value.beqPairs` decides propositional equality. -/
def Value.beqPairs_iff : (xs ys : List (Value × Value)) → (Value.beqPairs xs ys = true ↔ xs = ys)
  | [], [] => by simp [Value.beqPairs]
  | [], _ :: _ => by simp [Value.beqPairs]
  | _ :: _, [] => by simp [Value.beqPairs]
  | (k1, v1) :: xs, (k2, v2) :: ys => by
      rw [show Value.beqPairs ((k1, v1) :: xs) ((k2, v2) :: ys)
          = (Value.beq k1 k2 && Value.beq v1 v2 && Value.beqPairs xs ys) from rfl]
      rw [Bool.and_eq_true, Bool.and_eq_true, Value.beq_iff, Value.beq_iff, Value.beqPairs_iff]
      simp [Prod.ext_iff]

end

instance : DecidableEq Value := fun a b => decidable_of_iff _ (Value.beq_iff a b)

/-- Exceptions the conversion code can raise: failed `assert` statements,
dict lookups of a missing key, sequence indexing out of range, and the
TypeError raised by keyword-unpacking a non-string key. -/
inductive PyError where
  | assertionError
  | keyError (k : String)
  | indexError
  | typeError
  deriving DecidableEq, Repr

instance {ε α : Type} [DecidableEq ε] [DecidableEq α] : DecidableEq (Except ε α) :=
  fun a b =>
    match a, b with
    | .ok x, .ok y =>
        if h : x = y then isTrue (by rw [h])
        else isFalse (fun hh => by cases hh; exact h rfl)
    | .error x, .error y =>
        if h : x = y then isTrue (by rw [h])
        else isFalse (fun hh => by cases hh; exact h rfl)
    | .ok _, .error _ => isFalse (fun hh => Except.noConfusion hh)
    | .error _, .ok _ => isFalse (fun hh => Except.noConfusion hh)

/-- A built converter: one schema field's transformation closure. -/
abbrev Conv := Value → Except PyError Value

/-- Python dict item assignment `d[k] = v` on an insertion-ordered dict:
if the key is already present the stored value is updated in place (the
stored key object is kept), otherwise the pair is appended at the end. -/
def pyDictInsert : List (Value × Value) → Value → Value → List (Value × Value)
  | [], k, v => [(k, v)]
  | p :: rest, k, v =>
      if p.1 == k then (p.1, v) :: rest else p :: pyDictInsert rest k v

/-- Python dict lookup `d[k]` on an insertion-ordered dict (first — and on a
real dict only — entry whose stored key equals the probe). -/
def alistLookup : List (Value × Value) → Value → Option Value
  | [], _ => Option.none
  | p :: rest, k => if p.1 == k then some p.2 else alistLookup rest k

/-- Insert a list of pairs into a dict, left to right. -/
def pyDictExtend : List (Value × Value) → List (Value × Value) → List (Value × Value)
  | acc, [] => acc
  | acc, (k, v) :: rest => pyDictExtend (pyDictInsert acc k v) rest

/-- Python `dict(pairs)`: build a dict from a pair list, later bindings of
an equal key overwriting earlier ones. -/
def pyDictOfPairs (l : List (Value × Value)) : List (Value × Value) :=
  pyDictExtend [] l

/-- The value bound to `k` by the last pair of `l` whose key equals `k`. -/
def lastAssoc (l : List (Value × Value)) (k : Value) : Option Value :=
  alistLookup l.reverse k

/-- Lookup in a dict built by a comprehension over a (name, x) list: a later
binding of the same name overwrites an earlier one, so the last occurrence
wins (this models `{field.name: conv for field in fields}[k]`). -/
def lookupLast {α : Type} : List (String × α) → String → Option α
  | [], _ => Option.none
  | p :: rest, k =>
      match lookupLast rest k with
      | some v => some v
      | Option.none => if p.1 = k then some p.2 else Option.none

/-- Model of Python `str(value)` on the atomic values accepted by the
String converter (the exact rendering of non-boolean values is a model of
the interpreter's textual form; only booleans matter to the claims). -/
def pyStr : Value → String
  | .none => "None"
  | .bool true => "True"
  | .bool false => "False"
  | .int n => toString n
  | .float q => toString q
  | .str s => s
  | .bytes b => "b" ++ toString b
  | .bytearray b => "bytearray" ++ toString b
  | .decimal d => if d.nan then "NaN" else toString d.val
  | .date o => "date(" ++ toString o ++ ")"
  | .datetime t => "datetime(" ++ toString t.naive ++ ")"
  | .timedelta m => "timedelta(" ++ toString m ++ ")"
  | .list _ => "list"
  | .tuple _ => "tuple"
  | .dict _ => "dict"
  | .row _ _ => "Row"

/-- ASCII lowercase of one character (all the String converter ever
lowercases is the text True or False). -/
def pyCharLower : Char → Char
  | 'A' => 'a' | 'B' => 'b' | 'C' => 'c' | 'D' => 'd' | 'E' => 'e' | 'F' => 'f'
  | 'G' => 'g' | 'H' => 'h' | 'I' => 'i' | 'J' => 'j' | 'K' => 'k' | 'L' => 'l'
  | 'M' => 'm' | 'N' => 'n' | 'O' => 'o' | 'P' => 'p' | 'Q' => 'q' | 'R' => 'r'
  | 'S' => 's' | 'T' => 't' | 'U' => 'u' | 'V' => 'v' | 'W' => 'w' | 'X' => 'x'
  | 'Y' => 'y' | 'Z' => 'z'
  | c => c

/-- Model of Python str.lower() restricted to ASCII letters. -/
def pyLower (s : String) : String :=
  String.mk (s.data.map pyCharLower)

/-- Modelled from the Python datetime library (external collaborator): the
fixed offset, in minutes, that the running interpreter's local timezone
assigns to naive datetimes.  Its concrete value is environment dependent
and no verified property depends on it. -/
def localTimezoneOffset : Int := 330

/-- Modelled from the Python datetime library (external collaborator):
`value.astimezone(datetime.timezone.utc)`.  An aware datetime is shifted to
UTC wall time; a naive one is first interpreted in the local timezone.
Either way the result carries the UTC timezone (`some 0`). -/
def Datetime.astimezoneUTC (t : Datetime) : Datetime :=
  match t.tz with
  | some o => { naive := t.naive - o, tz := some 0 }
  | Option.none => { naive := t.naive - localTimezoneOffset, tz := some 0 }

namespace LocalDataToArrowConversion

/-- LocalDataToArrowConversion._need_converter (lines 55-80). -/
def _need_converter : DataType → Bool
  | .nullType => true
  | .structType _ => true
  | .arrayType elementType => _need_converter elementType
  | .mapType _ _ => true
  | .binaryType => true
  | .timestampType => true
  | .timestampNTZType => true
  | .decimalType => true
  | .stringType => true
  | _ => false

/-- Items loop of convert_struct for a dict-shaped value (lines 108-111):
assert each key is a string, look up the child converter by field name
(KeyError when the name is not a schema field), apply it and assign the
result into the output dict. -/
def convertDictItems (field_convs : List (String × Conv)) :
    List (Value × Value) → List (Value × Value) → Except PyError (List (Value × Value))
  | acc, [] => Except.ok acc
  | acc, (k, v) :: rest =>
      match k with
      | Value.str s =>
          match lookupLast field_convs s with
          | some conv =>
              match conv v with
              | Except.ok cv =>
                  convertDictItems field_convs (pyDictInsert acc (Value.str s) cv) rest
              | Except.error e => Except.error e
          | Option.none => Except.error (PyError.keyError s)
      | _ => Except.error PyError.assertionError

/-- Positional loop shared by convert_struct (lines 116-121) and the
top-level per-row loop (lines 253-258), which are textually identical in
the source: pair each value with the next field name in order, failing
with IndexError when the values outnumber the field names. -/
def convertPositionalItems (field_convs : List (String × Conv)) :
    List (Value × Value) → List String → List Value → Except PyError (List (Value × Value))
  | acc, _, [] => Except.ok acc
  | _, [], _ :: _ => Except.error PyError.indexError
  | acc, name :: names, v :: vs =>
      match lookupLast field_convs name with
      | some conv =>
          match conv v with
          | Except.ok cv =>
              convertPositionalItems field_convs (pyDictInsert acc (Value.str name) cv) names vs
          | Except.error e => Except.error e
      | Option.none => Except.error (PyError.keyError name)

/-- convert_struct closure (lines 101-123): None propagates; a dict is
converted by key, a Row carrying field names through its asDict view, any
other tuple positionally; every other shape fails the isinstance assert. -/
def convert_struct (field_names : List String) (field_convs : List (String × Conv)) : Conv :=
  fun value =>
    match value with
    | Value.none => Except.ok Value.none
    | Value.dict entries =>
        match convertDictItems field_convs [] entries with
        | Except.ok d => Except.ok (Value.dict d)
        | Except.error e => Except.error e
    | Value.row rfields rvalues =>
        match convertDictItems field_convs []
            ((rfields.zip rvalues).map (fun p => (Value.str p.1, p.2))) with
        | Except.ok d => Except.ok (Value.dict d)
        | Except.error e => Except.error e
    | Value.tuple vs =>
        match convertPositionalItems field_convs [] field_names vs with
        | Except.ok d => Except.ok (Value.dict d)
        | Except.error e => Except.error e
    | _ => Except.error PyError.assertionError

/-- Loop of convert_map (lines 151-153): convert each entry's key then
value and append the converted pair, preserving entry order. -/
def convertMapItems (key_conv value_conv : Conv) :
    List (Value × Value) → Except PyError (List Value)
  | [] => Except.ok []
  | (k, v) :: rest =>
      match key_conv k with
      | Except.ok ck =>
          match value_conv v with
          | Except.ok cv =>
              match convertMapItems key_conv value_conv rest with
              | Except.ok ts => Except.ok (Value.tuple [ck, cv] :: ts)
              | Except.error e => Except.error e
          | Except.error e => Except.error e
      | Except.error e => Except.error e

/-- convert_map closure (lines 145-157): None propagates; a dict becomes
the ordered list of converted (key, value) tuples; anything else fails. -/
def convert_map (key_conv value_conv : Conv) : Conv :=
  fun value =>
    match value with
    | Value.none => Except.ok Value.none
    | Value.dict entries =>
        match convertMapItems key_conv value_conv entries with
        | Except.ok ts => Except.ok (Value.list ts)
        | Except.error e => Except.error e
    | _ => Except.error PyError.assertionError

/-- convert_array closure (lines 131-138): None propagates; a list is
converted elementwise in order; anything else fails the isinstance assert
(the array.array case of the source is outside the value model). -/
def convert_array (element_conv : Conv) : Conv :=
  fun value =>
    match value with
    | Value.none => Except.ok Value.none
    | Value.list xs =>
        match xs.mapM element_conv with
        | Except.ok ys => Except.ok (Value.list ys)
        | Except.error e => Except.error e
    | _ => Except.error PyError.assertionError

/-- convert_binary closure (lines 161-168): bytes or bytearray normalize
to immutable bytes; anything else fails. -/
def convert_binary : Conv :=
  fun value =>
    match value with
    | Value.none => Except.ok Value.none
    | Value.bytes b => Except.ok (Value.bytes b)
    | Value.bytearray b => Except.ok (Value.bytes b)
    | _ => Except.error PyError.assertionError

/-- convert_timestample closure (lines 172-179, source name kept): a
datetime is forced to a UTC-bearing instant via astimezone. -/
def convert_timestample : Conv :=
  fun value =>
    match value with
    | Value.none => Except.ok Value.none
    | Value.datetime t => Except.ok (Value.datetime t.astimezoneUTC)
    | _ => Except.error PyError.assertionError

/-- convert_decimal closure (lines 183-190): a NaN decimal becomes None,
any other decimal is returned unchanged. -/
def convert_decimal : Conv :=
  fun value =>
    match value with
    | Value.none => Except.ok Value.none
    | Value.decimal d => if d.nan then Except.ok Value.none else Except.ok (Value.decimal d)
    | _ => Except.error PyError.assertionError

/-- convert_string closure (lines 194-221): only atomic values pass the
isinstance assert; booleans render as lowercase text, every other atomic
as its textual form. -/
def convert_string : Conv :=
  fun value =>
    match value with
    | Value.none => Except.ok Value.none
    | Value.bool b => Except.ok (Value.str (pyLower (pyStr (Value.bool b))))
    | Value.int n => Except.ok (Value.str (pyStr (Value.int n)))
    | Value.float q => Except.ok (Value.str (pyStr (Value.float q)))
    | Value.str s => Except.ok (Value.str (pyStr (Value.str s)))
    | Value.bytes b => Except.ok (Value.str (pyStr (Value.bytes b)))
    | Value.bytearray b => Except.ok (Value.str (pyStr (Value.bytearray b)))
    | Value.decimal d => Except.ok (Value.str (pyStr (Value.decimal d)))
    | Value.date o => Except.ok (Value.str (pyStr (Value.date o)))
    | Value.datetime t => Except.ok (Value.str (pyStr (Value.datetime t)))
    | Value.timedelta m => Except.ok (Value.str (pyStr (Value.timedelta m)))
    | _ => Except.error PyError.assertionError

mutual

/-- LocalDataToArrowConversion._create_converter (lines 82-225): identity
when no conversion is needed, otherwise type-directed dispatch building
the per-type closure, recursively building child converters. -/
def _create_converter (dataType : DataType) : Conv :=
  if _need_converter dataType then
    match dataType with
    | .nullType => fun _ => Except.ok Value.none
    | .structType fields =>
        convert_struct (fields.map Prod.fst) (createFieldConvs fields)
    | .arrayType elementType => convert_array (_create_converter elementType)
    | .mapType keyType valueType =>
        convert_map (_create_converter keyType) (_create_converter valueType)
    | .binaryType => convert_binary
    | .timestampType => convert_timestample
    | .timestampNTZType => convert_timestample
    | .decimalType => convert_decimal
    | .stringType => convert_string
    | _ => fun value => Except.ok value
  else fun value => Except.ok value

/-- The per-field converter map of convert_struct (lines 96-99), keyed by
field name in field order. -/
def createFieldConvs : List (String × DataType) → List (String × Conv)
  | [] => []
  | (name, t) :: rest => (name, _create_converter t) :: createFieldConvs rest

end

/-- Top-level per-row loop for a dict-shaped item (lines 247-249): like the
struct-level dict loop but without the string-key assert; a key that is
not a column name raises KeyError. -/
def convertTopDictItems (column_convs : List (String × Conv)) :
    List (Value × Value) → List (Value × Value) → Except PyError (List (Value × Value))
  | acc, [] => Except.ok acc
  | acc, (k, v) :: rest =>
      match k with
      | Value.str s =>
          match lookupLast column_convs s with
          | some conv =>
              match conv v with
              | Except.ok cv =>
                  convertTopDictItems column_convs (pyDictInsert acc (Value.str s) cv) rest
              | Except.error e => Except.error e
          | Option.none => Except.error (PyError.keyError s)
      | _ => Except.error (PyError.keyError (pyStr k))

/-- One iteration of the top-level row loop (lines 244-260): shape-dispatch
mirroring convert_struct, but at the row level (a list item is also
accepted positionally, being iterable; non-iterable items raise
TypeError). -/
def convertTopRow (column_names : List String) (column_convs : List (String × Conv))
    (item : Value) : Except PyError (List (Value × Value)) :=
  match item with
  | Value.dict entries => convertTopDictItems column_convs [] entries
  | Value.row rfields rvalues =>
      convertTopDictItems column_convs []
        ((rfields.zip rvalues).map (fun p => (Value.str p.1, p.2)))
  | Value.tuple vs => convertPositionalItems column_convs [] column_names vs
  | Value.list vs => convertPositionalItems column_convs [] column_names vs
  | _ => Except.error PyError.typeError

/-- LocalDataToArrowConversion.convert (lines 227-262), up to the external
Arrow collaborators: asserts the data list non-empty and the schema a
present StructType, builds one converter per schema field keyed by name,
and produces the list of per-row keyed mappings that the source hands to
pa.Table.from_pylist. -/
def convert (data : List Value) (schema : Option DataType) :
    Except PyError (List (List (Value × Value))) :=
  if data.length = 0 then Except.error PyError.assertionError
  else
    match schema with
    | some (DataType.structType fields) =>
        data.mapM (convertTopRow (fields.map Prod.fst) (createFieldConvs fields))
    | _ => Except.error PyError.assertionError

end LocalDataToArrowConversion

namespace ArrowTableToRowsConversion

/-- ArrowTableToRowsConversion._need_converter (lines 271-289): unlike the
outbound direction, Decimal and String need no conversion inbound. -/
def _need_converter : DataType → Bool
  | .nullType => true
  | .structType _ => true
  | .arrayType elementType => _need_converter elementType
  | .mapType _ _ => true
  | .binaryType => true
  | .timestampType => true
  | .timestampNTZType => true
  | _ => false

/-- Items loop of the inbound convert_struct (lines 318-321), textually the
same as the outbound one: assert string key, look up the child converter
by name, apply, assign into the output dict. -/
def convertDictItems (field_convs : List (String × Conv)) :
    List (Value × Value) → List (Value × Value) → Except PyError (List (Value × Value))
  | acc, [] => Except.ok acc
  | acc, (k, v) :: rest =>
      match k with
      | Value.str s =>
          match lookupLast field_convs s with
          | some conv =>
              match conv v with
              | Except.ok cv =>
                  convertDictItems field_convs (pyDictInsert acc (Value.str s) cv) rest
              | Except.error e => Except.error e
          | Option.none => Except.error (PyError.keyError s)
      | _ => Except.error PyError.assertionError

/-- Model of `Row(**d)`: keyword unpacking requires every key to be a
string (TypeError otherwise) and materializes a named row record with the
dict's keys as field names, in dict order. -/
def rowOfKwargs : List (Value × Value) → Except PyError Value :=
  fun d =>
    match strKeys d with
    | some pairs => Except.ok (Value.row (pairs.map Prod.fst) (pairs.map Prod.snd))
    | Option.none => Except.error PyError.typeError
where
  strKeys : List (Value × Value) → Option (List (String × Value))
    | [] => some []
    | (Value.str s, v) :: rest => (strKeys rest).map (fun ps => (s, v) :: ps)
    | _ => Option.none

/-- Inbound convert_struct closure (lines 311-326): a None cell
materializes as an empty row record Row(); a dict cell is rebuilt through
the child converters when any field needs conversion and rewrapped as a
row record either way; every other shape fails the isinstance assert. -/
def convert_struct (field_convs : List (String × Conv)) (need_conv : Bool) : Conv :=
  fun value =>
    match value with
    | Value.none => Except.ok (Value.row [] [])
    | Value.dict entries =>
        if need_conv then
          match convertDictItems field_convs [] entries with
          | Except.ok d => rowOfKwargs d
          | Except.error e => Except.error e
        else rowOfKwargs entries
    | _ => Except.error PyError.assertionError

/-- Inbound convert_array closure (lines 332-339): only a list passes the
isinstance assert; elements are converted in order. -/
def convert_array (element_conv : Conv) : Conv :=
  fun value =>
    match value with
    | Value.none => Except.ok Value.none
    | Value.list xs =>
        match xs.mapM element_conv with
        | Except.ok ys => Except.ok (Value.list ys)
        | Except.error e => Except.error e
    | _ => Except.error PyError.assertionError

/-- Whether a value is a 2-tuple, as the inbound convert_map asserts of
every element of its input list. -/
def isPairTuple : Value → Bool
  | .tuple [_, _] => true
  | _ => false

/-- Loop of the inbound convert_map generator (line 352): convert each
pair's key then value and bind them into the dict being built, a later
equal key overwriting the earlier binding. -/
def buildMapDictItems (key_conv value_conv : Conv) :
    List (Value × Value) → List Value → Except PyError (List (Value × Value))
  | acc, [] => Except.ok acc
  | acc, Value.tuple [k, v] :: rest =>
      match key_conv k with
      | Except.ok ck =>
          match value_conv v with
          | Except.ok cv => buildMapDictItems key_conv value_conv (pyDictInsert acc ck cv) rest
          | Except.error e => Except.error e
      | Except.error e => Except.error e
  | _, _ :: _ => Except.error PyError.assertionError

/-- Inbound convert_map closure (lines 346-354): the Arrow cell must be a
list of 2-tuples; the converted pairs are rebuilt into a mapping. -/
def convert_map (key_conv value_conv : Conv) : Conv :=
  fun value =>
    match value with
    | Value.none => Except.ok Value.none
    | Value.list xs =>
        if xs.all isPairTuple then
          match buildMapDictItems key_conv value_conv [] xs with
          | Except.ok d => Except.ok (Value.dict d)
          | Except.error e => Except.error e
        else Except.error PyError.assertionError
    | _ => Except.error PyError.assertionError

/-- Inbound convert_binary closure (lines 358-365): only immutable bytes
pass the assert; they are normalized to a mutable bytearray. -/
def convert_binary : Conv :=
  fun value =>
    match value with
    | Value.none => Except.ok Value.none
    | Value.bytes b => Except.ok (Value.bytearray b)
    | _ => Except.error PyError.assertionError

/-- Inbound convert_timestample closure (lines 369-380, source name kept):
an aware datetime has its timezone removed keeping the wall time, a naive
one is returned unchanged. -/
def convert_timestample : Conv :=
  fun value =>
    match value with
    | Value.none => Except.ok Value.none
    | Value.datetime t =>
        match t.tz with
        | some _ => Except.ok (Value.datetime { naive := t.naive, tz := Option.none })
        | Option.none => Except.ok (Value.datetime t)
    | _ => Except.error PyError.assertionError

mutual

/-- ArrowTableToRowsConversion._create_converter (lines 291-384): identity
when no conversion is needed, otherwise type-directed dispatch building
the per-type closure, recursively building child converters. -/
def _create_converter (dataType : DataType) : Conv :=
  if _need_converter dataType then
    match dataType with
    | .nullType => fun _ => Except.ok Value.none
    | .structType fields =>
        convert_struct (createFieldConvs fields)
          (fields.any (fun f => _need_converter f.2))
    | .arrayType elementType => convert_array (_create_converter elementType)
    | .mapType keyType valueType =>
        convert_map (_create_converter keyType) (_create_converter valueType)
    | .binaryType => convert_binary
    | .timestampType => convert_timestample
    | .timestampNTZType => convert_timestample
    | _ => fun value => Except.ok value
  else fun value => Except.ok value

/-- The per-field converter map of the inbound convert_struct (lines
303-306), keyed by field name in field order. -/
def createFieldConvs : List (String × DataType) → List (String × Conv)
  | [] => []
  | (name, t) :: rest => (name, _create_converter t) :: createFieldConvs rest

end

/-- Model of a pyarrow Table at the boundary this unit reads it: column
names, per-column dense cell lists (column.to_pylist()), and the row
count. -/
structure PaTable where
  column_names : List String
  columns : List (List Value)
  num_rows : Nat

/-- Inner comprehension of convert (line 403): for row i, index converter
j and cell [j][i] for each column, in order; an out-of-range converter or
cell index raises IndexError. -/
def convertCells (field_converters : List Conv) (i : Nat) :
    Nat → List (List Value) → Except PyError (List Value)
  | _, [] => Except.ok []
  | j, col :: rest =>
      match field_converters[j]? with
      | some conv =>
          match col[i]? with
          | some cell =>
              match conv cell with
              | Except.ok v =>
                  match convertCells field_converters i (j + 1) rest with
                  | Except.ok vs => Except.ok (v :: vs)
                  | Except.error e => Except.error e
              | Except.error e => Except.error e
          | Option.none => Except.error PyError.indexError
      | Option.none => Except.error PyError.indexError

/-- Row loop of convert (lines 401-404): for each row index in range,
convert its cells and materialize a row record via _create_row with the
table's column names. -/
def convertRows (field_converters : List Conv) (columnar_data : List (List Value))
    (column_names : List String) : Nat → Nat → Except PyError (List Value)
  | _, 0 => Except.ok []
  | i, Nat.succ remaining =>
      match convertCells field_converters i 0 columnar_data with
      | Except.ok values =>
          match convertRows field_converters columnar_data column_names (i + 1) remaining with
          | Except.ok rest => Except.ok (Value.row column_names values :: rest)
          | Except.error e => Except.error e
      | Except.error e => Except.error e

/-- ArrowTableToRowsConversion.convert (lines 386-405): asserts the schema
is a present StructType, builds one converter per schema field in field
order, and materializes one row record per table row from the columnar
cell lists. -/
def convert (table : PaTable) (schema : Option DataType) : Except PyError (List Value) :=
  match schema with
  | some (DataType.structType fields) =>
      convertRows (fields.map (fun f => _create_converter f.2)) table.columns
        table.column_names 0 table.num_rows
  | _ => Except.error PyError.assertionError

end ArrowTableToRowsConversion

/-- The atomic value shapes the String converter's isinstance assert
accepts (line 199-213). -/
def Value.isAtomic : Value → Bool
  | .bool _ => true
  | .int _ => true
  | .float _ => true
  | .str _ => true
  | .bytes _ => true
  | .bytearray _ => true
  | .decimal _ => true
  | .date _ => true
  | .datetime _ => true
  | .timedelta _ => true
  | _ => false

/-- Whether a value is a Python bool. -/
def Value.isBool : Value → Bool
  | .bool _ => true
  | _ => false

/-- The composite value shapes: lists and the three record shapes. -/
def Value.isComposite : Value → Bool
  | .list _ => true
  | .tuple _ => true
  | .dict _ => true
  | .row _ _ => true
  | _ => false

section Lemmas

/-- Every outbound converter maps None to None. -/
theorem outbound_converter_none (t : DataType) :
    LocalDataToArrowConversion._create_converter t Value.none = Except.ok Value.none := by
  cases t <;> try rfl
  case arrayType et =>
    simp only [LocalDataToArrowConversion._create_converter,
      LocalDataToArrowConversion._need_converter]
    split <;> rfl

/-- Every inbound converter except the struct one maps None to None; the
struct one materializes an empty row record. -/
theorem inbound_converter_none (t : DataType) :
    ArrowTableToRowsConversion._create_converter t Value.none =
      (if t.isStruct then Except.ok (Value.row ([] : List String) [])
       else Except.ok Value.none) := by
  cases t <;> try rfl
  case arrayType et =>
    simp only [ArrowTableToRowsConversion._create_converter,
      ArrowTableToRowsConversion._need_converter, DataType.isStruct]
    split <;> rfl

/-- Inserting a key absent from the dict appends the pair. -/
theorem pyDictInsert_of_not_mem (d : List (Value × Value)) (k v : Value)
    (h : ∀ p ∈ d, p.1 ≠ k) : pyDictInsert d k v = d ++ [(k, v)] := by
  induction d with
  | nil => rfl
  | cons p rest ih =>
      have hp : (p.1 == k) = false := by
        simpa using h p (List.mem_cons_self p rest)
      simp only [pyDictInsert, hp, Bool.false_eq_true, if_false, List.cons_append,
        List.cons.injEq, true_and]
      exact ih (fun q hq => h q (List.mem_cons_of_mem p hq))

/-- Extending a dict with pairs whose keys are distinct and all absent from
the dict appends the pairs in order. -/
theorem pyDictExtend_of_nodup (l : List (Value × Value)) :
    ∀ acc : List (Value × Value), (l.map Prod.fst).Nodup →
      (∀ p ∈ l, ∀ q ∈ acc, q.1 ≠ p.1) → pyDictExtend acc l = acc ++ l := by
  induction l with
  | nil => intro acc _ _; simp [pyDictExtend]
  | cons p rest ih =>
      intro acc hnodup hdisj
      have hn : p.1 ∉ rest.map Prod.fst ∧ (rest.map Prod.fst).Nodup :=
        List.nodup_cons.mp (by simpa using hnodup)
      rw [pyDictExtend, pyDictInsert_of_not_mem acc p.1 p.2
        (fun q hq => hdisj p (List.mem_cons_self p rest) q hq)]
      rw [ih (acc ++ [(p.1, p.2)]) hn.2]
      · simp
      · intro r hr q hq
        rcases List.mem_append.mp hq with hq1 | hq2
        · exact hdisj r (List.mem_cons_of_mem p hr) q hq1
        · have hq' : q = (p.1, p.2) := by simpa using hq2
          have hne : p.1 ≠ r.1 := by
            intro hcontra
            exact hn.1 (hcontra ▸ List.mem_map_of_mem Prod.fst hr)
          rw [hq']
          exact hne

/-- Python dict(pairs) on a pair list with pairwise-distinct keys returns
the pairs unchanged. -/
theorem pyDictOfPairs_of_nodup (l : List (Value × Value))
    (hnodup : (l.map Prod.fst).Nodup) : pyDictOfPairs l = l := by
  rw [pyDictOfPairs, pyDictExtend_of_nodup l [] hnodup (by simp)]
  simp

/-- Dict lookup after a Python dict assignment: the assigned key reads the
new value, every other key is unaffected. -/
theorem alistLookup_pyDictInsert (d : List (Value × Value)) (k v k' : Value) :
    alistLookup (pyDictInsert d k v) k' = if k' = k then some v else alistLookup d k' := by
  induction d with
  | nil =>
      by_cases h : k' = k
      · simp [pyDictInsert, alistLookup, h]
      · have hb : (k == k') = false := beq_eq_false_iff_ne.mpr (fun hh => h hh.symm)
        simp [pyDictInsert, alistLookup, hb, h]
  | cons p rest ih =>
      by_cases hp : (p.1 == k) = true
      · have hp' : p.1 = k := eq_of_beq hp
        simp only [pyDictInsert, hp, if_true, alistLookup]
        by_cases h : k' = k
        · simp [hp', h]
        · have : (p.1 == k') = false := by
            rw [hp']
            exact beq_eq_false_iff_ne.mpr (fun hh => h hh.symm)
          simp [this, h]
      · have hp' : (p.1 == k) = false := by simpa using hp
        simp only [pyDictInsert, hp', Bool.false_eq_true, if_false, alistLookup, ih]
        by_cases hq : (p.1 == k') = true
        · have hq' : p.1 = k' := eq_of_beq hq
          have hne : ¬ k' = k := by
            intro hh
            rw [hh] at hq'
            exact absurd (beq_iff_eq.mpr hq') (by simp [hp'])
          simp [hq, hne]
        · simp [hq]

/-- Lookup over a list append scans left to right. -/
theorem alistLookup_append (a b : List (Value × Value)) (k : Value) :
    alistLookup (a ++ b) k =
      match alistLookup a k with
      | some v => some v
      | Option.none => alistLookup b k := by
  induction a with
  | nil => simp [alistLookup]
  | cons p rest ih =>
      by_cases h : (p.1 == k) = true
      · simp [alistLookup, h]
      · simp only [List.cons_append, alistLookup, h, Bool.false_eq_true, if_false]
        exact ih

/-- Lookup in a dict built left to right from pairs over a base dict: the
last matching pair wins, the base dict answers only otherwise. -/
theorem alistLookup_pyDictExtend (l : List (Value × Value)) :
    ∀ (acc : List (Value × Value)) (k : Value),
      alistLookup (pyDictExtend acc l) k =
        match lastAssoc l k with
        | some v => some v
        | Option.none => alistLookup acc k := by
  induction l with
  | nil => intro acc k; simp [pyDictExtend, lastAssoc, alistLookup]
  | cons p rest ih =>
      intro acc k
      rw [pyDictExtend, ih]
      have hlast : lastAssoc (p :: rest) k =
          match lastAssoc rest k with
          | some v => some v
          | Option.none => if p.1 == k then some p.2 else Option.none := by
        simp only [lastAssoc, List.reverse_cons, alistLookup_append]
        cases alistLookup rest.reverse k <;> simp [alistLookup]
      rw [hlast]
      cases lastAssoc rest k with
      | some v => simp
      | none =>
          simp only [alistLookup_pyDictInsert]
          by_cases h : k = p.1
          · simp [h, beq_iff_eq.mpr rfl]
          · have : (p.1 == k) = false := beq_eq_false_iff_ne.mpr (fun hh => h hh.symm)
            simp [h, this]

/-- Lookup in Python dict(pairs) returns the value of the last pair whose
key equals the probe. -/
theorem alistLookup_pyDictOfPairs (l : List (Value × Value)) (k : Value) :
    alistLookup (pyDictOfPairs l) k = lastAssoc l k := by
  rw [pyDictOfPairs, alistLookup_pyDictExtend]
  cases lastAssoc l k <;> simp [alistLookup]

/-- A Python dict assignment grows the dict by at most one entry. -/
theorem pyDictInsert_length (d : List (Value × Value)) (k v : Value) :
    (pyDictInsert d k v).length ≤ d.length + 1 := by
  induction d with
  | nil => simp [pyDictInsert]
  | cons p rest ih =>
      by_cases h : (p.1 == k) = true
      · simp [pyDictInsert, h]
      · simp only [pyDictInsert, h, Bool.false_eq_true, if_false, List.length_cons]
        omega

/-- Extending a dict with a pair list grows it by at most the list length. -/
theorem pyDictExtend_length (l : List (Value × Value)) :
    ∀ acc : List (Value × Value), (pyDictExtend acc l).length ≤ acc.length + l.length := by
  induction l with
  | nil => intro acc; simp [pyDictExtend]
  | cons p rest ih =>
      intro acc
      rw [pyDictExtend]
      have h1 := ih (pyDictInsert acc p.1 p.2)
      have h2 := pyDictInsert_length acc p.1 p.2
      simp only [List.length_cons]
      omega

/-- Python dict(pairs) has at most as many entries as the pair list. -/
theorem pyDictOfPairs_length (l : List (Value × Value)) :
    (pyDictOfPairs l).length ≤ l.length := by
  have := pyDictExtend_length l []
  simpa [pyDictOfPairs] using this

/-- A field whose type needs no outbound conversion gets the identity
converter. -/
theorem outbound_identity (t : DataType)
    (h : LocalDataToArrowConversion._need_converter t = false) (v : Value) :
    LocalDataToArrowConversion._create_converter t v = Except.ok v := by
  unfold LocalDataToArrowConversion._create_converter
  rw [h]
  rfl

/-- A field whose type needs no inbound conversion gets the identity
converter. -/
theorem inbound_identity (t : DataType)
    (h : ArrowTableToRowsConversion._need_converter t = false) (v : Value) :
    ArrowTableToRowsConversion._create_converter t v = Except.ok v := by
  unfold ArrowTableToRowsConversion._create_converter
  rw [h]
  rfl

/-- The outbound convert_map loop under key and value converters that
succeed entrywise produces the converted pairs as tuples, in order. -/
theorem convertMapItems_forall2 (kc vc : Conv) (pairs ckvs : List (Value × Value))
    (h : List.Forall₂
      (fun p q => kc p.1 = Except.ok q.1 ∧ vc p.2 = Except.ok q.2) pairs ckvs) :
    LocalDataToArrowConversion.convertMapItems kc vc pairs
      = Except.ok (ckvs.map (fun p => Value.tuple [p.1, p.2])) := by
  induction h with
  | nil => rfl
  | cons h1 _ ih =>
      rename_i p q ps qs _
      obtain ⟨k, v⟩ := p
      obtain ⟨ck, cv⟩ := q
      obtain ⟨hk, hv⟩ := h1
      simp only at hk hv
      simp only [LocalDataToArrowConversion.convertMapItems, hk, hv, ih, List.map_cons]

/-- The inbound convert_map generator under key and value converters that
succeed entrywise builds the Python dict of the converted pairs. -/
theorem buildMapDictItems_forall2 (kc vc : Conv) (pairs ckvs : List (Value × Value))
    (h : List.Forall₂
      (fun p q => kc p.1 = Except.ok q.1 ∧ vc p.2 = Except.ok q.2) pairs ckvs) :
    ∀ acc : List (Value × Value),
      ArrowTableToRowsConversion.buildMapDictItems kc vc acc
        (pairs.map (fun p => Value.tuple [p.1, p.2]))
      = Except.ok (pyDictExtend acc ckvs) := by
  induction h with
  | nil => intro acc; rfl
  | cons h1 _ ih =>
      intro acc
      rename_i p q ps qs _
      obtain ⟨k, v⟩ := p
      obtain ⟨ck, cv⟩ := q
      obtain ⟨hk, hv⟩ := h1
      simp only at hk hv
      simp only [List.map_cons, ArrowTableToRowsConversion.buildMapDictItems, hk, hv,
        pyDictExtend]
      exact ih _

/-- Every element of a pair list rendered as 2-tuples passes the inbound
convert_map element assert. -/
theorem all_isPairTuple_map (l : List (Value × Value)) :
    (l.map (fun p => Value.tuple [p.1, p.2])).all ArrowTableToRowsConversion.isPairTuple
      = true := by
  induction l with
  | nil => rfl
  | cons p rest ih => simpa [List.all_cons, ArrowTableToRowsConversion.isPairTuple] using ih

/-- Building the outbound converter for a struct type dispatches to
convert_struct over the per-field converter map. -/
theorem outbound_create_struct (fields : List (String × DataType)) :
    LocalDataToArrowConversion._create_converter (DataType.structType fields)
      = LocalDataToArrowConversion.convert_struct (fields.map Prod.fst)
        (LocalDataToArrowConversion.createFieldConvs fields) := rfl

/-- Building the inbound converter for a struct type dispatches to
convert_struct over the per-field converter map and the any-field-needs-
conversion flag. -/
theorem inbound_create_struct (fields : List (String × DataType)) :
    ArrowTableToRowsConversion._create_converter (DataType.structType fields)
      = ArrowTableToRowsConversion.convert_struct
        (ArrowTableToRowsConversion.createFieldConvs fields)
        (fields.any (fun f => ArrowTableToRowsConversion._need_converter f.2)) := rfl

/-- The dict-shaped and positional item loops of the outbound struct
converter agree step for step when the dict enumerates the field names in
schema order: both look the name up in the same converter map and insert
the converted value under the same key. -/
theorem dict_positional_agree (fc : List (String × Conv)) :
    ∀ (names : List String) (vals : List Value) (acc : List (Value × Value)),
      vals.length = names.length →
      LocalDataToArrowConversion.convertDictItems fc acc
        ((names.zip vals).map (fun p => (Value.str p.1, p.2)))
      = LocalDataToArrowConversion.convertPositionalItems fc acc names vals := by
  intro names
  induction names with
  | nil =>
      intro vals acc hlen
      have hv : vals = [] := List.eq_nil_of_length_eq_zero hlen
      subst hv
      rfl
  | cons n ns ih =>
      intro vals acc hlen
      cases vals with
      | nil => exact absurd hlen (by simp)
      | cons v vs =>
          cases hl : lookupLast fc n with
          | none =>
              simp [List.zip_cons_cons, List.map_cons,
                LocalDataToArrowConversion.convertDictItems,
                LocalDataToArrowConversion.convertPositionalItems, hl]
          | some conv =>
              cases hc : conv v with
              | error e =>
                  simp [List.zip_cons_cons, List.map_cons,
                    LocalDataToArrowConversion.convertDictItems,
                    LocalDataToArrowConversion.convertPositionalItems, hl, hc]
              | ok cv =>
                  simp only [List.zip_cons_cons, List.map_cons,
                    LocalDataToArrowConversion.convertDictItems,
                    LocalDataToArrowConversion.convertPositionalItems, hl, hc]
                  exact ih vs (pyDictInsert acc (Value.str n) cv) (by simpa using hlen)

/-- Looking up a name outside the key list yields nothing. -/
theorem lookupLast_eq_none {α : Type} (l : List (String × α)) (n : String)
    (h : n ∉ l.map Prod.fst) : lookupLast l n = Option.none := by
  induction l with
  | nil => rfl
  | cons p rest ih =>
      have h1 : p.1 ≠ n := by
        intro hh
        exact h (by simp [hh.symm])
      have h2 : n ∉ rest.map Prod.fst := fun hh => h (by simp [hh])
      simp [lookupLast, ih h2, h1]

/-- Building the outbound field converter map preserves the field names. -/
theorem outbound_createFieldConvs_keys (fields : List (String × DataType)) :
    (LocalDataToArrowConversion.createFieldConvs fields).map Prod.fst
      = fields.map Prod.fst := by
  induction fields with
  | nil => rfl
  | cons f rest ih =>
      obtain ⟨n, t⟩ := f
      simp [LocalDataToArrowConversion.createFieldConvs, ih]

/-- With distinct field names, looking a field's name up in the outbound
converter map yields the converter built for that field's type. -/
theorem outbound_lookup_createFieldConvs (fields : List (String × DataType))
    (hnodup : (fields.map Prod.fst).Nodup) (n : String) (t : DataType)
    (hmem : (n, t) ∈ fields) :
    lookupLast (LocalDataToArrowConversion.createFieldConvs fields) n
      = some (LocalDataToArrowConversion._create_converter t) := by
  induction fields with
  | nil => exact absurd hmem (by simp)
  | cons f rest ih =>
      obtain ⟨m, s⟩ := f
      have hn : m ∉ rest.map Prod.fst ∧ (rest.map Prod.fst).Nodup :=
        List.nodup_cons.mp (by simpa using hnodup)
      rcases List.mem_cons.mp hmem with hhead | htail
      · injection hhead with h1 h2
        subst h1
        subst h2
        have hnone : lookupLast (LocalDataToArrowConversion.createFieldConvs rest) n
            = Option.none := by
          apply lookupLast_eq_none
          rw [outbound_createFieldConvs_keys]
          exact hn.1
        simp [LocalDataToArrowConversion.createFieldConvs, lookupLast, hnone]
      · have := ih hn.2 htail
        simp [LocalDataToArrowConversion.createFieldConvs, lookupLast, this]

/-- Transfer a per-field conversion-success hypothesis to the name-keyed
converter map used by the positional loop. -/
theorem forall2_lookup_transfer (fields sub : List (String × DataType)) (vals : List Value)
    (hsub : ∀ f ∈ sub, f ∈ fields) (hnodup : (fields.map Prod.fst).Nodup)
    (h : List.Forall₂ (fun (f : String × DataType) v => ∃ w,
      LocalDataToArrowConversion._create_converter f.2 v = Except.ok w) sub vals) :
    List.Forall₂ (fun n v => ∃ c w,
      lookupLast (LocalDataToArrowConversion.createFieldConvs fields) n = some c ∧
      c v = Except.ok w) (sub.map Prod.fst) vals := by
  induction h with
  | nil => exact List.Forall₂.nil
  | cons h1 h2 ih =>
      rename_i f v fs vs
      obtain ⟨w, hw⟩ := h1
      refine List.Forall₂.cons ⟨LocalDataToArrowConversion._create_converter f.2, w, ?_, hw⟩
        (ih (fun g hg => hsub g (List.mem_cons_of_mem f hg)))
      exact outbound_lookup_createFieldConvs fields hnodup f.1 f.2
        (hsub (f.1, f.2) (by simp))

/-- The positional loop with fewer values than names succeeds when each
value converts, producing a dict keyed by the first names in order. -/
theorem positional_underflow (fc : List (String × Conv)) :
    ∀ (vals : List Value) (names : List String) (acc : List (Value × Value)),
      vals.length ≤ names.length →
      List.Forall₂ (fun n v => ∃ c w, lookupLast fc n = some c ∧ c v = Except.ok w)
        (names.take vals.length) vals →
      (∀ n ∈ names.take vals.length, (Value.str n) ∉ acc.map Prod.fst) →
      (names.take vals.length).Nodup →
      ∃ d, LocalDataToArrowConversion.convertPositionalItems fc acc names vals
          = Except.ok d ∧
        d.map Prod.fst = acc.map Prod.fst ++ (names.take vals.length).map Value.str := by
  intro vals
  induction vals with
  | nil =>
      intro names acc _ _ _ _
      exact ⟨acc, by cases names <;> simp [LocalDataToArrowConversion.convertPositionalItems]⟩
  | cons v vs ih =>
      intro names acc hlen hconv hdisj hnodup
      cases names with
      | nil => exact absurd hlen (by simp)
      | cons n ns =>
          simp only [List.length_cons, List.take_succ_cons] at hconv hdisj hnodup
          have hcons := List.forall₂_cons.mp hconv
          obtain ⟨⟨c, w, hc, hw⟩, hrest⟩ := hcons
          have hins : pyDictInsert acc (Value.str n) w = acc ++ [(Value.str n, w)] := by
            apply pyDictInsert_of_not_mem
            intro p hp hpk
            exact hdisj n (by simp) (hpk ▸ List.mem_map_of_mem Prod.fst hp)
          have hnm : Value.str n ∉ (acc ++ [(Value.str n, w)]).map Prod.fst → False := by
            simp
          obtain ⟨d, hd, hkeys⟩ := ih ns (pyDictInsert acc (Value.str n) w)
            (by simpa using hlen)
            hrest
            (by
              intro m hm
              rw [hins]
              simp only [List.map_append, List.mem_append]
              rintro (hin | hin)
              · exact hdisj m (by simp [hm]) hin
              · have : Value.str m = Value.str n := by simpa using hin
                have hmn : m = n := by
                  injection this
                exact (List.nodup_cons.mp hnodup).1 (hmn ▸ hm))
            (List.nodup_cons.mp hnodup).2
          refine ⟨d, ?_, ?_⟩
          · simp only [LocalDataToArrowConversion.convertPositionalItems, hc, hw]
            exact hd
          · rw [hkeys, hins]
            simp

/-- The positional loop with more values than names always fails. -/
theorem positional_overflow (fc : List (String × Conv)) :
    ∀ (names : List String) (vals : List Value) (acc : List (Value × Value)),
      names.length < vals.length →
      ∃ e, LocalDataToArrowConversion.convertPositionalItems fc acc names vals
        = Except.error e := by
  intro names
  induction names with
  | nil =>
      intro vals acc hlen
      cases vals with
      | nil => exact absurd hlen (by simp)
      | cons v vs => exact ⟨PyError.indexError, rfl⟩
  | cons n ns ih =>
      intro vals acc hlen
      cases vals with
      | nil => exact absurd hlen (by simp)
      | cons v vs =>
          cases hl : lookupLast fc n with
          | none =>
              exact ⟨PyError.keyError n,
                by simp [LocalDataToArrowConversion.convertPositionalItems, hl]⟩
          | some conv =>
              cases hc : conv v with
              | error e =>
                  exact ⟨e, by simp [LocalDataToArrowConversion.convertPositionalItems, hl, hc]⟩
              | ok cv =>
                  obtain ⟨e, he⟩ := ih vs (pyDictInsert acc (Value.str n) cv) (by simpa using hlen)
                  exact ⟨e, by simp [LocalDataToArrowConversion.convertPositionalItems, hl, hc, he]⟩

/-- The cell comprehension fails when the converter index runs past the
field converter list while columns remain. -/
theorem convertCells_oob (convs : List Conv) (i : Nat) :
    ∀ (cols : List (List Value)) (j : Nat), cols ≠ [] → convs.length < j + cols.length →
      ∃ e, ArrowTableToRowsConversion.convertCells convs i j cols = Except.error e := by
  intro cols
  induction cols with
  | nil => intro j h _; exact absurd rfl h
  | cons col rest ih =>
      intro j _ hlen
      by_cases hj : convs.length ≤ j
      · have : convs[j]? = Option.none := List.getElem?_eq_none hj
        exact ⟨PyError.indexError, by simp [ArrowTableToRowsConversion.convertCells, this]⟩
      · push_neg at hj
        have hsome : convs[j]? = some convs[j] := List.getElem?_eq_getElem hj
        cases hcell : col[i]? with
        | none =>
            exact ⟨PyError.indexError,
              by simp [ArrowTableToRowsConversion.convertCells, hsome, hcell]⟩
        | some cell =>
            cases hconv : convs[j] cell with
            | error e =>
                exact ⟨e,
                  by simp [ArrowTableToRowsConversion.convertCells, hsome, hcell, hconv]⟩
            | ok v =>
                have hrest : rest ≠ [] := by
                  intro hh
                  subst hh
                  simp at hlen
                  omega
                obtain ⟨e, he⟩ := ih (j + 1) hrest (by simp at hlen ⊢; omega)
                exact ⟨e,
                  by simp [ArrowTableToRowsConversion.convertCells, hsome, hcell, hconv, he]⟩

/-- The cell comprehension succeeds when the converters are identities and
every remaining column has a cell at the row index. -/
theorem convertCells_id (convs : List Conv)
    (hid : ∀ c ∈ convs, ∀ v, c v = Except.ok v) (i : Nat) :
    ∀ (cols : List (List Value)) (j : Nat), j + cols.length ≤ convs.length →
      (∀ col ∈ cols, i < col.length) →
      ∃ vs, ArrowTableToRowsConversion.convertCells convs i j cols = Except.ok vs := by
  intro cols
  induction cols with
  | nil => intro j _ _; exact ⟨[], rfl⟩
  | cons col rest ih =>
      intro j hlen hcell
      have hj : j < convs.length := by simp at hlen; omega
      have hlt : i < col.length := hcell col (List.mem_cons_self col rest)
      have hsome : convs[j]? = some convs[j] := List.getElem?_eq_getElem hj
      have hc : col[i]? = some col[i] := List.getElem?_eq_getElem hlt
      obtain ⟨vs, hvs⟩ := ih (j + 1) (by simp at hlen ⊢; omega)
        (fun c hcm => hcell c (List.mem_cons_of_mem col hcm))
      refine ⟨col[i] :: vs, ?_⟩
      simp [ArrowTableToRowsConversion.convertCells, hsome, hc,
        hid convs[j] (convs.getElem_mem hj) col[i], hvs]

/-- The row loop returns exactly one row record per requested row. -/
theorem convertRows_ok_length (convs : List Conv) (cols : List (List Value))
    (names : List String) :
    ∀ (n i : Nat) (rows : List Value),
      ArrowTableToRowsConversion.convertRows convs cols names i n = Except.ok rows →
      rows.length = n := by
  intro n
  induction n with
  | zero =>
      intro i rows h
      simp only [ArrowTableToRowsConversion.convertRows] at h
      cases h
      rfl
  | succ k ih =>
      intro i rows h
      simp only [ArrowTableToRowsConversion.convertRows] at h
      cases hcells : ArrowTableToRowsConversion.convertCells convs i 0 cols with
      | error e => rw [hcells] at h; cases h
      | ok values =>
          rw [hcells] at h
          cases hrest : ArrowTableToRowsConversion.convertRows convs cols names (i + 1) k with
          | error e => rw [hrest] at h; cases h
          | ok rest =>
              rw [hrest] at h
              cases h
              simpa using ih (i + 1) rest hrest

/-- The row loop succeeds end to end when the converters are identities,
the columns are no more numerous than the converters, and every column
holds a cell for every requested row index. -/
theorem convertRows_id (convs : List Conv) (cols : List (List Value))
    (names : List String) (hid : ∀ c ∈ convs, ∀ v, c v = Except.ok v)
    (hlen : cols.length ≤ convs.length) (N : Nat)
    (hcol : ∀ col ∈ cols, col.length = N) :
    ∀ (n i : Nat), i + n ≤ N →
      ∃ rows, ArrowTableToRowsConversion.convertRows convs cols names i n = Except.ok rows := by
  intro n
  induction n with
  | zero => intro i _; exact ⟨[], rfl⟩
  | succ k ih =>
      intro i hin
      obtain ⟨vs, hvs⟩ := convertCells_id convs hid i cols 0 (by omega)
        (fun col hc => by rw [hcol col hc]; omega)
      obtain ⟨rows, hrows⟩ := ih (i + 1) (by omega)
      exact ⟨Value.row names vs :: rows,
        by simp [ArrowTableToRowsConversion.convertRows, hvs, hrows]⟩

end Lemmas

/-- C1 (amended): converting a null (None) input yields a null output for
every schema type in the Row-to-Column direction and for every non-struct
schema type in the Column-to-Row direction; the Column-to-Row Struct
converter instead materializes an empty row record Row(). -/
theorem C1_null_propagation_amended (t : DataType) :
    LocalDataToArrowConversion._create_converter t Value.none = Except.ok Value.none ∧
    ArrowTableToRowsConversion._create_converter t Value.none =
      (if t.isStruct then Except.ok (Value.row ([] : List String) [])
       else Except.ok Value.none) :=
  ⟨outbound_converter_none t, inbound_converter_none t⟩

/-- C1 counterexample: the Column-to-Row converter built for the struct
type with one integer field maps None to the empty row record Row(), not
to None, refuting the claim that null maps to null for every type in both
directions. -/
theorem C1_null_struct_counterexample :
    ArrowTableToRowsConversion._create_converter
      (DataType.structType [("a", DataType.integerType)]) Value.none
      ≠ Except.ok Value.none := by decide

/-- C4 (amended): a non-null scalar integer fails the shape assert of the
Map and Struct converters in both directions; for an Array-typed field it
fails exactly when the element type needs conversion — otherwise the built
converter is the identity and the scalar is returned unchanged. -/
theorem C4_scalar_shape_mismatch_amended (kt vt et : DataType)
    (fields : List (String × DataType)) (n : Int) :
    LocalDataToArrowConversion._create_converter (DataType.mapType kt vt) (Value.int n)
      = Except.error PyError.assertionError ∧
    ArrowTableToRowsConversion._create_converter (DataType.mapType kt vt) (Value.int n)
      = Except.error PyError.assertionError ∧
    LocalDataToArrowConversion._create_converter (DataType.structType fields) (Value.int n)
      = Except.error PyError.assertionError ∧
    ArrowTableToRowsConversion._create_converter (DataType.structType fields) (Value.int n)
      = Except.error PyError.assertionError ∧
    LocalDataToArrowConversion._create_converter (DataType.arrayType et) (Value.int n)
      = (if LocalDataToArrowConversion._need_converter et then Except.error PyError.assertionError
         else Except.ok (Value.int n)) ∧
    ArrowTableToRowsConversion._create_converter (DataType.arrayType et) (Value.int n)
      = (if ArrowTableToRowsConversion._need_converter et then Except.error PyError.assertionError
         else Except.ok (Value.int n)) := by
  refine ⟨rfl, rfl, rfl, rfl, ?_, ?_⟩
  · simp only [LocalDataToArrowConversion._create_converter,
      LocalDataToArrowConversion._need_converter]
    split <;> rfl
  · simp only [ArrowTableToRowsConversion._create_converter,
      ArrowTableToRowsConversion._need_converter]
    split <;> rfl

/-- C4 counterexample: the Row-to-Column converter built for
Array(Integer) applied to the scalar 7 returns 7 unchanged instead of
failing, refuting the claim for Array-typed fields whose element type
needs no conversion. -/
theorem C4_array_identity_counterexample :
    LocalDataToArrowConversion._create_converter
      (DataType.arrayType DataType.integerType) (Value.int 7)
      = Except.ok (Value.int 7) := by decide

/-- C6: for every non-null datetime, the outbound Timestamp converter (for
both the zoned and the no-zone schema type) returns an instant carrying
the UTC timezone, and the inbound one returns the value with no timezone
attached, whatever zone the input carried. -/
theorem C6_timestamp_normalization (dt : Datetime) :
    LocalDataToArrowConversion._create_converter DataType.timestampType (Value.datetime dt)
      = Except.ok (Value.datetime dt.astimezoneUTC) ∧
    LocalDataToArrowConversion._create_converter DataType.timestampNTZType (Value.datetime dt)
      = Except.ok (Value.datetime dt.astimezoneUTC) ∧
    dt.astimezoneUTC.tz = some 0 ∧
    ArrowTableToRowsConversion._create_converter DataType.timestampType (Value.datetime dt)
      = Except.ok (Value.datetime { naive := dt.naive, tz := Option.none }) ∧
    ArrowTableToRowsConversion._create_converter DataType.timestampNTZType (Value.datetime dt)
      = Except.ok (Value.datetime { naive := dt.naive, tz := Option.none }) := by
  obtain ⟨naive, tz⟩ := dt
  refine ⟨rfl, rfl, ?_, ?_, ?_⟩ <;> cases tz <;> rfl

/-- C7: the outbound String converter renders booleans as the lowercase
texts true and false, renders every other accepted atomic scalar as its
textual form, and fails the isinstance assert on composite values. -/
theorem C7_string_coercion (v : Value) :
    LocalDataToArrowConversion._create_converter DataType.stringType (Value.bool true)
      = Except.ok (Value.str "true") ∧
    LocalDataToArrowConversion._create_converter DataType.stringType (Value.bool false)
      = Except.ok (Value.str "false") ∧
    (v.isAtomic = true → v.isBool = false →
      LocalDataToArrowConversion._create_converter DataType.stringType v
        = Except.ok (Value.str (pyStr v))) ∧
    (v.isComposite = true →
      LocalDataToArrowConversion._create_converter DataType.stringType v
        = Except.error PyError.assertionError) := by
  refine ⟨by decide, by decide, ?_, ?_⟩
  · intro h hb
    cases v
    case none => exact Bool.noConfusion h
    case bool b => exact Bool.noConfusion hb
    case list xs => exact Bool.noConfusion h
    case tuple xs => exact Bool.noConfusion h
    case dict xs => exact Bool.noConfusion h
    case row fs vs => exact Bool.noConfusion h
    all_goals rfl
  · intro h
    cases v
    case list xs => rfl
    case tuple xs => rfl
    case dict xs => rfl
    case row fs vs => rfl
    all_goals exact Bool.noConfusion h

/-- C7 witness: the converter at concrete atomic and composite inputs. -/
theorem C7_string_coercion_witness :
    LocalDataToArrowConversion._create_converter DataType.stringType (Value.int 5)
      = Except.ok (Value.str "5") ∧
    LocalDataToArrowConversion._create_converter DataType.stringType
      (Value.list [Value.int 1]) = Except.error PyError.assertionError :=
  ⟨by rw [(C7_string_coercion (Value.int 5)).2.2.1 rfl rfl]; rfl,
   (C7_string_coercion (Value.list [Value.int 1])).2.2.2 rfl⟩

/-- C8: the outbound Decimal converter maps a NaN decimal to None and any
other decimal to itself unchanged; inbound, Decimal needs no conversion
and the built converter is the identity on every value. -/
theorem C8_decimal_nan (d : PyDecimal) (v : Value) :
    LocalDataToArrowConversion._create_converter DataType.decimalType (Value.decimal d)
      = (if d.nan then Except.ok Value.none else Except.ok (Value.decimal d)) ∧
    ArrowTableToRowsConversion._need_converter DataType.decimalType = false ∧
    ArrowTableToRowsConversion._create_converter DataType.decimalType v = Except.ok v := by
  refine ⟨?_, rfl, rfl⟩
  show LocalDataToArrowConversion.convert_decimal (Value.decimal d) = _
  simp only [LocalDataToArrowConversion.convert_decimal]

/-- C5: for key and value types that need no conversion in either
direction, the outbound Map converter turns a mapping with distinct keys
into the ordered list of its (key, value) pairs as tuples, preserving
entry order, and the inbound Map converter turns that pair list back into
a mapping equal to the original. -/
theorem C5_map_roundtrip (kt vt : DataType) (entries : List (Value × Value))
    (hk1 : LocalDataToArrowConversion._need_converter kt = false)
    (hv1 : LocalDataToArrowConversion._need_converter vt = false)
    (hk2 : ArrowTableToRowsConversion._need_converter kt = false)
    (hv2 : ArrowTableToRowsConversion._need_converter vt = false)
    (hnodup : (entries.map Prod.fst).Nodup) :
    LocalDataToArrowConversion._create_converter (DataType.mapType kt vt) (Value.dict entries)
      = Except.ok (Value.list (entries.map (fun p => Value.tuple [p.1, p.2]))) ∧
    ArrowTableToRowsConversion._create_converter (DataType.mapType kt vt)
      (Value.list (entries.map (fun p => Value.tuple [p.1, p.2])))
      = Except.ok (Value.dict entries) := by
  constructor
  · have hfor : List.Forall₂
        (fun p q => LocalDataToArrowConversion._create_converter kt p.1 = Except.ok q.1 ∧
          LocalDataToArrowConversion._create_converter vt p.2 = Except.ok q.2)
        entries entries :=
      List.forall₂_same.mpr
        (fun x _ => ⟨outbound_identity kt hk1 x.1, outbound_identity vt hv1 x.2⟩)
    show LocalDataToArrowConversion.convert_map
      (LocalDataToArrowConversion._create_converter kt)
      (LocalDataToArrowConversion._create_converter vt) (Value.dict entries) = _
    simp only [LocalDataToArrowConversion.convert_map,
      convertMapItems_forall2 _ _ _ _ hfor]
  · have hfor : List.Forall₂
        (fun p q => ArrowTableToRowsConversion._create_converter kt p.1 = Except.ok q.1 ∧
          ArrowTableToRowsConversion._create_converter vt p.2 = Except.ok q.2)
        entries entries :=
      List.forall₂_same.mpr
        (fun x _ => ⟨inbound_identity kt hk2 x.1, inbound_identity vt hv2 x.2⟩)
    show ArrowTableToRowsConversion.convert_map
      (ArrowTableToRowsConversion._create_converter kt)
      (ArrowTableToRowsConversion._create_converter vt)
      (Value.list (entries.map (fun p => Value.tuple [p.1, p.2]))) = _
    simp only [ArrowTableToRowsConversion.convert_map, all_isPairTuple_map, if_true,
      buildMapDictItems_forall2 _ _ _ _ hfor []]
    rw [show pyDictExtend [] entries = pyDictOfPairs entries from rfl,
      pyDictOfPairs_of_nodup entries hnodup]

/-- C5 witness: a two-entry integer map survives the round trip. -/
theorem C5_map_roundtrip_witness :
    (([(Value.int 1, Value.int 10), (Value.int 2, Value.int 20)].map
        (Prod.fst (β := Value))).Nodup) ∧
    (LocalDataToArrowConversion._create_converter
        (DataType.mapType DataType.integerType DataType.integerType)
        (Value.dict [(Value.int 1, Value.int 10), (Value.int 2, Value.int 20)])
      = Except.ok (Value.list [Value.tuple [Value.int 1, Value.int 10],
          Value.tuple [Value.int 2, Value.int 20]]) ∧
    ArrowTableToRowsConversion._create_converter
        (DataType.mapType DataType.integerType DataType.integerType)
        (Value.list [Value.tuple [Value.int 1, Value.int 10],
          Value.tuple [Value.int 2, Value.int 20]])
      = Except.ok (Value.dict [(Value.int 1, Value.int 10), (Value.int 2, Value.int 20)])) :=
  ⟨by decide,
   C5_map_roundtrip DataType.integerType DataType.integerType
     [(Value.int 1, Value.int 10), (Value.int 2, Value.int 20)]
     rfl rfl rfl rfl (by decide)⟩

/-- C10: the inbound Map converter, under key and value converters that
succeed entrywise, builds the Python dict of the converted pairs: looking
up any key yields the converted value of that key's last occurrence, and
the mapping has at most as many entries as the pair list (colliding
converted keys are collapsed). -/
theorem C10_map_last_occurrence (kt vt : DataType) (pairs ckvs : List (Value × Value))
    (h : List.Forall₂
      (fun p q => ArrowTableToRowsConversion._create_converter kt p.1 = Except.ok q.1 ∧
        ArrowTableToRowsConversion._create_converter vt p.2 = Except.ok q.2) pairs ckvs) :
    ArrowTableToRowsConversion._create_converter (DataType.mapType kt vt)
      (Value.list (pairs.map (fun p => Value.tuple [p.1, p.2])))
      = Except.ok (Value.dict (pyDictOfPairs ckvs)) ∧
    (∀ k : Value, alistLookup (pyDictOfPairs ckvs) k = lastAssoc ckvs k) ∧
    (pyDictOfPairs ckvs).length ≤ ckvs.length := by
  refine ⟨?_, fun k => alistLookup_pyDictOfPairs ckvs k, pyDictOfPairs_length ckvs⟩
  show ArrowTableToRowsConversion.convert_map
    (ArrowTableToRowsConversion._create_converter kt)
    (ArrowTableToRowsConversion._create_converter vt)
    (Value.list (pairs.map (fun p => Value.tuple [p.1, p.2]))) = _
  simp only [ArrowTableToRowsConversion.convert_map, all_isPairTuple_map, if_true,
    buildMapDictItems_forall2 _ _ _ _ h []]
  rfl

/-- C2: supplying the same logical struct record as an ordered sequence,
as a keyed mapping enumerating the schema's field names in field order, or
as a named-field row object, produces identical converted output through
the outbound struct converter — including identical failures. -/
theorem C2_shape_equivalence (fields : List (String × DataType)) (vals : List Value)
    (hlen : vals.length = fields.length) :
    LocalDataToArrowConversion._create_converter (DataType.structType fields)
        (Value.dict (((fields.map Prod.fst).zip vals).map (fun p => (Value.str p.1, p.2))))
      = LocalDataToArrowConversion._create_converter (DataType.structType fields)
        (Value.tuple vals) ∧
    LocalDataToArrowConversion._create_converter (DataType.structType fields)
        (Value.dict (((fields.map Prod.fst).zip vals).map (fun p => (Value.str p.1, p.2))))
      = LocalDataToArrowConversion._create_converter (DataType.structType fields)
        (Value.row (fields.map Prod.fst) vals) := by
  constructor
  · rw [outbound_create_struct]
    simp only [LocalDataToArrowConversion.convert_struct]
    rw [dict_positional_agree (LocalDataToArrowConversion.createFieldConvs fields)
      (fields.map Prod.fst) vals [] (by simpa using hlen)]
  · rfl

/-- C2 witness: a two-field record in its three shapes converts to the
same keyed mapping. -/
theorem C2_shape_equivalence_witness :
    LocalDataToArrowConversion._create_converter
        (DataType.structType [("a", DataType.stringType), ("b", DataType.integerType)])
        (Value.dict [(Value.str "a", Value.bool true), (Value.str "b", Value.int 1)])
      = LocalDataToArrowConversion._create_converter
        (DataType.structType [("a", DataType.stringType), ("b", DataType.integerType)])
        (Value.tuple [Value.bool true, Value.int 1]) ∧
    LocalDataToArrowConversion._create_converter
        (DataType.structType [("a", DataType.stringType), ("b", DataType.integerType)])
        (Value.dict [(Value.str "a", Value.bool true), (Value.str "b", Value.int 1)])
      = LocalDataToArrowConversion._create_converter
        (DataType.structType [("a", DataType.stringType), ("b", DataType.integerType)])
        (Value.row ["a", "b"] [Value.bool true, Value.int 1]) :=
  C2_shape_equivalence [("a", DataType.stringType), ("b", DataType.integerType)]
    [Value.bool true, Value.int 1] (by decide)

/-- C9: through the outbound struct converter and the top-level row loop,
a positional value with fewer values than the schema has fields converts
without error (each value converting) into a keyed mapping whose keys are
exactly the first field names, silently omitting the trailing fields; a
positional value with more values than fields always fails. -/
theorem C9_positional_truncation (fields : List (String × DataType)) (vals : List Value)
    (hnodup : (fields.map Prod.fst).Nodup) :
    (vals.length ≤ fields.length →
      List.Forall₂ (fun (f : String × DataType) v => ∃ w,
        LocalDataToArrowConversion._create_converter f.2 v = Except.ok w)
        (fields.take vals.length) vals →
      ∃ d, LocalDataToArrowConversion._create_converter (DataType.structType fields)
          (Value.tuple vals) = Except.ok (Value.dict d) ∧
        d.map Prod.fst = (fields.take vals.length).map (fun f => Value.str f.1) ∧
        LocalDataToArrowConversion.convert [Value.tuple vals]
          (some (DataType.structType fields)) = Except.ok [d]) ∧
    (fields.length < vals.length →
      (∃ e, LocalDataToArrowConversion._create_converter (DataType.structType fields)
          (Value.tuple vals) = Except.error e) ∧
      (∃ e, LocalDataToArrowConversion.convert [Value.tuple vals]
          (some (DataType.structType fields)) = Except.error e)) := by
  constructor
  · intro hle hconv
    have htake : (fields.map Prod.fst).take vals.length
        = (fields.take vals.length).map Prod.fst := by
      rw [List.map_take]
    have hfor := forall2_lookup_transfer fields (fields.take vals.length) vals
      (fun f hf => List.mem_of_mem_take hf) hnodup hconv
    rw [← htake] at hfor
    obtain ⟨d, hd, hkeys⟩ := positional_underflow
      (LocalDataToArrowConversion.createFieldConvs fields) vals (fields.map Prod.fst) []
      (by simpa using hle) hfor (by simp)
      (List.Nodup.sublist (List.take_sublist _ _) hnodup)
    refine ⟨d, ?_, ?_, ?_⟩
    · rw [outbound_create_struct]
      simp only [LocalDataToArrowConversion.convert_struct, hd]
    · rw [hkeys, htake]
      simp only [List.map_nil, List.nil_append, List.map_map]
      rfl
    · simp [LocalDataToArrowConversion.convert, List.mapM.loop,
        LocalDataToArrowConversion.convertTopRow, hd]
  · intro hlt
    obtain ⟨e, he⟩ := positional_overflow
      (LocalDataToArrowConversion.createFieldConvs fields) (fields.map Prod.fst) vals []
      (by simpa using hlt)
    constructor
    · refine ⟨e, ?_⟩
      rw [outbound_create_struct]
      simp only [LocalDataToArrowConversion.convert_struct, he]
    · exact ⟨e,
        by simp [LocalDataToArrowConversion.convert, List.mapM.loop,
          LocalDataToArrowConversion.convertTopRow, he]⟩

/-- C9 witness: two schema fields, one positional value: the trailing
field is silently omitted; one schema field, two positional values: the
conversion fails. -/
theorem C9_positional_truncation_witness :
    (∃ d, LocalDataToArrowConversion._create_converter
        (DataType.structType [("a", DataType.integerType), ("b", DataType.integerType)])
        (Value.tuple [Value.int 1]) = Except.ok (Value.dict d) ∧
      d.map Prod.fst = [Value.str "a"] ∧
      LocalDataToArrowConversion.convert [Value.tuple [Value.int 1]]
        (some (DataType.structType [("a", DataType.integerType), ("b", DataType.integerType)]))
        = Except.ok [d]) ∧
    (∃ e, LocalDataToArrowConversion._create_converter
        (DataType.structType [("a", DataType.integerType)])
        (Value.tuple [Value.int 1, Value.int 2]) = Except.error e) :=
  ⟨(C9_positional_truncation [("a", DataType.integerType), ("b", DataType.integerType)]
      [Value.int 1] (by decide)).1 (by decide)
      (List.Forall₂.cons ⟨Value.int 1, rfl⟩ List.Forall₂.nil),
   ((C9_positional_truncation [("a", DataType.integerType)]
      [Value.int 1, Value.int 2] (by decide)).2 (by decide)).1⟩

/-- C10 witness: with Null-typed keys both converted keys collide on None
and the later pair's value wins, collapsing two pairs to one entry. -/
theorem C10_map_last_occurrence_witness :
    ArrowTableToRowsConversion._create_converter
      (DataType.mapType DataType.nullType DataType.integerType)
      (Value.list [Value.tuple [Value.int 1, Value.int 10],
        Value.tuple [Value.int 2, Value.int 20]])
      = Except.ok (Value.dict [(Value.none, Value.int 20)]) := by
  have h := (C10_map_last_occurrence DataType.nullType DataType.integerType
      [(Value.int 1, Value.int 10), (Value.int 2, Value.int 20)]
      [(Value.none, Value.int 10), (Value.none, Value.int 20)]
      (List.Forall₂.cons ⟨rfl, rfl⟩ (List.Forall₂.cons ⟨rfl, rfl⟩ List.Forall₂.nil))).1
  exact h

/-- C3 (amended): the Column-to-Row entry point fails when the schema is
absent, and fails (with an index error among the possible errors) when the
table has at least one row and strictly more columns than the schema has
fields; whenever it returns, it returns exactly one row record per table
row — in particular schema fields beyond the column count do not make it
fail, and with no-conversion field types, intact columns and at most as
many columns as fields it succeeds with one row record per table row. -/
theorem C3_table_to_rows_contract (table : ArrowTableToRowsConversion.PaTable)
    (fields : List (String × DataType)) :
    ArrowTableToRowsConversion.convert table Option.none
      = Except.error PyError.assertionError ∧
    (0 < table.num_rows → fields.length < table.columns.length →
      ∃ e, ArrowTableToRowsConversion.convert table (some (DataType.structType fields))
        = Except.error e) ∧
    (∀ rows, ArrowTableToRowsConversion.convert table (some (DataType.structType fields))
        = Except.ok rows → rows.length = table.num_rows) ∧
    ((∀ f ∈ fields, ArrowTableToRowsConversion._need_converter f.2 = false) →
      table.columns.length ≤ fields.length →
      (∀ col ∈ table.columns, col.length = table.num_rows) →
      ∃ rows, ArrowTableToRowsConversion.convert table (some (DataType.structType fields))
          = Except.ok rows ∧ rows.length = table.num_rows) := by
  refine ⟨rfl, ?_, ?_, ?_⟩
  · intro hrows hcols
    obtain ⟨k, hk⟩ : ∃ k, table.num_rows = k + 1 :=
      ⟨table.num_rows - 1, by omega⟩
    have hconvs : (fields.map
        (fun f => ArrowTableToRowsConversion._create_converter f.2)).length
        < 0 + table.columns.length := by
      simpa using hcols
    have hne : table.columns ≠ [] := by
      intro hh
      rw [hh] at hcols
      simp at hcols
    obtain ⟨e, he⟩ := convertCells_oob
      (fields.map (fun f => ArrowTableToRowsConversion._create_converter f.2)) 0
      table.columns 0 hne hconvs
    refine ⟨e, ?_⟩
    simp only [ArrowTableToRowsConversion.convert, hk]
    simp [ArrowTableToRowsConversion.convertRows, he]
  · intro rows h
    exact convertRows_ok_length _ table.columns table.column_names table.num_rows 0 rows h
  · intro hno hle hcol
    have hid : ∀ c ∈ fields.map
        (fun f => ArrowTableToRowsConversion._create_converter f.2), ∀ v, c v = Except.ok v := by
      intro c hc v
      obtain ⟨f, hf, hcf⟩ := List.mem_map.mp hc
      rw [← hcf]
      exact inbound_identity f.2 (hno f hf) v
    obtain ⟨rows, hrows⟩ := convertRows_id
      (fields.map (fun f => ArrowTableToRowsConversion._create_converter f.2))
      table.columns table.column_names hid (by simpa using hle) table.num_rows hcol
      table.num_rows 0 (by omega)
    exact ⟨rows, hrows,
      convertRows_ok_length _ table.columns table.column_names table.num_rows 0 rows hrows⟩

/-- C3 counterexample: a schema with two fields against a one-column,
one-row table — the field and column counts disagree, yet the conversion
does not fail: it returns the one row, ignoring the extra schema field. -/
theorem C3_extra_fields_counterexample :
    ArrowTableToRowsConversion.convert
      { column_names := ["a"], columns := [[Value.int 1]], num_rows := 1 }
      (some (DataType.structType [("a", DataType.integerType), ("b", DataType.integerType)]))
      = Except.ok [Value.row ["a"] [Value.int 1]] := by decide

/-- C3 witness: the amended contract at concrete tables — a missing
schema fails; two columns against one field with one row fail; one column
against one field yields exactly one row record. -/
theorem C3_table_to_rows_contract_witness :
    ArrowTableToRowsConversion.convert
      { column_names := ["a"], columns := [[Value.int 1]], num_rows := 1 }
      Option.none = Except.error PyError.assertionError ∧
    (∃ e, ArrowTableToRowsConversion.convert
      { column_names := ["a", "b"], columns := [[Value.int 1], [Value.int 2]], num_rows := 1 }
      (some (DataType.structType [("a", DataType.integerType)])) = Except.error e) ∧
    (∃ rows, ArrowTableToRowsConversion.convert
        { column_names := ["a"], columns := [[Value.int 1]], num_rows := 1 }
        (some (DataType.structType [("a", DataType.integerType)]))
        = Except.ok rows ∧ rows.length = 1) :=
  ⟨(C3_table_to_rows_contract
      { column_names := ["a"], columns := [[Value.int 1]], num_rows := 1 }
      [("a", DataType.integerType)]).1,
   (C3_table_to_rows_contract
      { column_names := ["a", "b"], columns := [[Value.int 1], [Value.int 2]], num_rows := 1 }
      [("a", DataType.integerType)]).2.1 (by decide) (by decide),
   (C3_table_to_rows_contract
      { column_names := ["a"], columns := [[Value.int 1]], num_rows := 1 }
      [("a", DataType.integerType)]).2.2.2 (by decide) (by decide) (by decide)⟩
